import Mathlib

/- A shallow embedding of the decisionbot SMS contact-book server
   (src/crates/server/src/main.rs) together with theorems about the
   specified behaviour of its command interpreter, vcard import engine,
   deferred-selection workflow and pending-deletion workflow. -/

namespace DecisionBot

/-- Decidable equality for `Except`, needed to settle concrete runs. -/
instance {ε α : Type} [DecidableEq ε] [DecidableEq α] : DecidableEq (Except ε α) := fun x y =>
  match x, y with
  | .ok a, .ok b =>
    if h : a = b then .isTrue (by subst h; rfl)
    else .isFalse (by intro hc; cases hc; exact h rfl)
  | .ok _, .error _ => .isFalse (by intro hc; cases hc)
  | .error _, .ok _ => .isFalse (by intro hc; cases hc)
  | .error a, .error b =>
    if h : a = b then .isTrue (by subst h; rfl)
    else .isFalse (by intro hc; cases hc; exact h rfl)

/-- Rust `str::split(',')` on the underlying characters: splitting at every
occurrence of the separator; adjacent separators yield empty pieces. -/
def splitChar (sep : Char) : List Char → List (List Char)
  | [] => [[]]
  | c :: cs =>
    match splitChar sep cs with
    | [] => [[]]
    | p :: ps => if c = sep then [] :: p :: ps else (c :: p) :: ps

/-- Rust `char::is_ascii_whitespace`. -/
def isAsciiWs (c : Char) : Bool :=
  c = ' ' || c = '\t' || c = '\n' || c = '\x0d' || c = '\x0c'

/-- Rust `str::trim` (whitespace stripped from both ends; modelled for the
ASCII whitespace characters that occur in SMS bodies). -/
def trimChars (cs : List Char) : List Char :=
  ((cs.dropWhile isAsciiWs).reverse.dropWhile isAsciiWs).reverse

/-- String form of `trimChars`. -/
def strTrim (s : String) : String := String.mk (trimChars s.toList)

/-- Helper for `splitAsciiWhitespace`: accumulate the current word (reversed). -/
def asciiWordsAux : List Char → List Char → List (List Char)
  | [], acc => if acc.isEmpty then [] else [acc.reverse]
  | c :: cs, acc =>
    if isAsciiWs c then
      if acc.isEmpty then asciiWordsAux cs [] else acc.reverse :: asciiWordsAux cs []
    else asciiWordsAux cs (c :: acc)

/-- Rust `str::split_ascii_whitespace`: the whitespace-free words of a string,
in order, with no empty words. -/
def splitAsciiWhitespace (s : String) : List String :=
  (asciiWordsAux s.toList []).map String.mk

/-- The comma-separated, trimmed tokens of a selection string, as in
`selections.split(',').map(str::trim)`. -/
def splitCommaTrim (s : String) : List String :=
  (splitChar ',' s.toList).map (fun cs => String.mk (trimChars cs))

/-- Rust `str::parse::<usize>()`: optional leading `+`, then one or more ASCII
digits. Overflow is not modelled; the parse is only ever applied to ordinals. -/
def parseUsize (s : String) : Option Nat :=
  let cs := s.toList
  let digits := if cs.head? = some '+' then cs.tail else cs
  if digits.isEmpty then none
  else if digits.all Char.isDigit then
    some (digits.foldl (fun n c => n * 10 + (c.toNat - 48)) 0)
  else none

/-- UTF-8 byte length of a string, as Rust `str::len`. -/
def utf8Len (s : String) : Nat := (s.toList.map Char.utf8Size).sum

/-- Helper for `splitAtByte`. -/
def splitAtByteAux : List Char → Nat → Option (List Char × List Char)
  | cs, 0 => some ([], cs)
  | [], _ + 1 => none
  | c :: cs, i + 1 =>
    if c.utf8Size ≤ i + 1 then
      (splitAtByteAux cs (i + 1 - c.utf8Size)).map (fun p => (c :: p.1, p.2))
    else none

/-- Rust `str::split_at`: split at a byte index; `none` models the panic that
Rust raises when the index is not a character boundary. -/
def splitAtByte (s : String) (i : Nat) : Option (String × String) :=
  (splitAtByteAux s.toList i).map (fun p => (String.mk p.1, String.mk p.2))

/-- Helper for `containsList`: is the first list a leading segment of the second? -/
def leadsList : List Char → List Char → Bool
  | [], _ => true
  | _ :: _, [] => false
  | a :: as, b :: bs => a = b && leadsList as bs

/-- Does a character list contain the given (possibly empty) needle? -/
def containsList (needle : List Char) : List Char → Bool
  | [] => needle.isEmpty
  | c :: cs => leadsList needle (c :: cs) || containsList needle cs

/-- Substring test on strings: used to model SQL `LIKE '%pat%'` (wildcard
characters inside the pattern are not modelled) and to state that a reply
embeds a given error text. -/
def strContains (hay needle : String) : Bool := containsList needle.toList hay.toList

/-- ASCII lowercasing of one character, as in `eq_ignore_ascii_case` and the
SQL `LOWER` of the delete search (modelled for the ASCII range). -/
def lowerChar (c : Char) : Char :=
  if 'A' ≤ c ∧ c ≤ 'Z' then Char.ofNat (c.toNat + 32) else c

/-- ASCII lowercasing of a string. -/
def strLower (s : String) : String := String.mk (s.toList.map lowerChar)

/-- One row of the `contacts` table. -/
structure Contact where
  id : Int
  submitter_number : String
  contact_name : String
  contact_user_number : String
deriving DecidableEq, Repr

/-- The persistent store: the `users` table (number, name), the `contacts`
table, and the rowid counter supplying fresh contact ids. -/
structure Db where
  users : List (String × String)
  contacts : List Contact
  nextId : Int
deriving DecidableEq, Repr

/-- An in-memory record of a card whose numbers await a `pick`. Timestamps are
in seconds; `Instant::now()` is passed in as an explicit `now` parameter. -/
structure DeferredContact where
  name : String
  numbers : List (String × Option String)
  timestamp : Nat
deriving DecidableEq, Repr

/-- An in-memory deletion candidate, keyed by a `submitter:ordinal` token. -/
structure PendingDeletion where
  contact_id : Int
  timestamp : Nat
deriving DecidableEq, Repr

/-- The process-wide `DEFERRED_CONTACTS` map, as an association list with
unique keys (a sound refinement of `HashMap`: no reply depends on hash order). -/
abbrev DeferredMap := List (String × List DeferredContact)

/-- The process-wide `PENDING_DELETIONS` map. -/
abbrev PendingMap := List (String × PendingDeletion)

/-- The full mutable state a message handler can touch: the store plus the two
process-wide maps. -/
structure St where
  db : Db
  deferred : DeferredMap
  pending : PendingMap
deriving DecidableEq, Repr

/-- HashMap lookup on an association list. -/
def alGet {α : Type} : List (String × α) → String → Option α
  | [], _ => none
  | p :: rest, k => if p.1 = k then some p.2 else alGet rest k

/-- HashMap insert: overwrite the entry if the key is present, else append. -/
def alInsert {α : Type} (m : List (String × α)) (k : String) (v : α) : List (String × α) :=
  if (alGet m k).isSome then m.map (fun p => if p.1 = k then (k, v) else p)
  else m ++ [(k, v)]

/-- HashMap `get_mut` followed by replacing the value in place (used by
`handle_pick` to empty a submitter's entry with `retain(|_| false)`). -/
def alSetIfPresent {α : Type} (m : List (String × α)) (k : String) (v : α) :
    List (String × α) :=
  m.map (fun p => if p.1 = k then (k, v) else p)

/-- `DEFERRED_CONTACTS.entry(from).or_default().push(d)`. -/
def alPush (m : DeferredMap) (k : String) (v : DeferredContact) : DeferredMap :=
  if (alGet m k).isSome then m.map (fun p => if p.1 = k then (p.1, p.2 ++ [v]) else p)
  else m ++ [(k, [v])]

/-- `DEFERRED_TIMEOUT`: 5 minutes, in seconds. -/
def DEFERRED_TIMEOUT : Nat := 300

/-- `DELETION_TIMEOUT`: 5 minutes, in seconds. -/
def DELETION_TIMEOUT : Nat := 300

/-- The eviction pass at the top of `handle_pick`: drop expired records, then
drop submitters whose list became empty. -/
def cleanupDeferred (m : DeferredMap) (now : Nat) : DeferredMap :=
  (m.map (fun p => (p.1, p.2.filter (fun c => now - c.timestamp ≤ DEFERRED_TIMEOUT)))).filter
    (fun p => !p.2.isEmpty)

/-- `cleanup_pending_deletions`. -/
def cleanupPendingDeletions (pd : PendingMap) (now : Nat) : PendingMap :=
  pd.filter (fun p => now - p.2.timestamp ≤ DELETION_TIMEOUT)

/-- Modelled from the spec: the command set of the grammar (`mod command` is
declared in `main.rs` but its source file is not under `src/`). -/
inductive Command where
  | h | name | stop | info | contacts | delete | confirm | pick
deriving DecidableEq, Repr

/-- Modelled from the spec: `Command::try_from` on a leading token is a
case-sensitive exact match on the command word; `none` models the `Err` case. -/
def Command.tryFrom (w : String) : Option Command :=
  if w = "h" then some .h
  else if w = "name" then some .name
  else if w = "stop" then some .stop
  else if w = "info" then some .info
  else if w = "contacts" then some .contacts
  else if w = "delete" then some .delete
  else if w = "confirm" then some .confirm
  else if w = "pick" then some .pick
  else none

/-- Modelled from the spec: `all::<Command>()` in declaration order. -/
def Command.all : List Command := [.h, .name, .stop, .info, .contacts, .delete, .confirm, .pick]

/-- Modelled from the spec: the command word, used by the `Display` instance. -/
def Command.word : Command → String
  | .h => "h"
  | .name => "name"
  | .stop => "stop"
  | .info => "info"
  | .contacts => "contacts"
  | .delete => "delete"
  | .confirm => "confirm"
  | .pick => "pick"

/-- Modelled from the spec: `Command::usage`, a short usage string. Its exact
text is unknown (the `command` module is not under `src/`); only that it is a
fixed string per command is relied on. -/
def Command.usage (c : Command) : String := "Usage: " ++ c.word

/-- Modelled from the spec: `Command::hint`, the usage nudge for a command. -/
def Command.hint (c : Command) : String := "Reply with " ++ c.word ++ " to continue."

/-- Modelled from the spec: `Command::description`. -/
def Command.description (c : Command) : String := "what " ++ c.word ++ " does"

/-- Modelled from the spec: `Command::example` (named `exampleText` because
`example` is a Lean keyword). -/
def Command.exampleText (c : Command) : String := " For example: " ++ c.word

/-- `SELECT * FROM users WHERE number = ?` with `fetch_optional`. -/
def findUser (db : Db) (number : String) : Option (String × String) :=
  db.users.find? (fun u => u.1 = number)

/-- The transactional insert shared by `add_contact` and the single-number arm
of `process_vcard`: materialize the target user if absent, then insert the
contact row, then commit. -/
def addContact (db : Db) (from_ name number : String) : Db :=
  let users' := if (findUser db number).isSome then db.users else db.users ++ [(number, name)]
  { users := users'
    contacts := db.contacts ++ [⟨db.nextId, from_, name, number⟩]
    nextId := db.nextId + 1 }

/-- Outcome of one `pick` token: a success line or a failure line. -/
inductive TokenOutcome where
  | success (msg : String)
  | failure (msg : String)
deriving DecidableEq, Repr

/-- One iteration of the selection loop in `handle_pick`. `failAdd` is the
store-failure oracle for the `add_contact` insert: `some e` makes the insert
fail with error text `e` (the transaction rolls back), `none` lets it commit.
The `.error ()` result models a Rust panic: the byte-index `split_at` landing
inside a UTF-8 character, or `chars().next().unwrap()` on an empty string. -/
def pickToken (failAdd : String → String → Option String) (db : Db)
    (deferred : List DeferredContact) (from_ sel : String) :
    Except Unit (Db × TokenOutcome) :=
  if utf8Len sel < 2 then
    .ok (db, .failure ("Invalid selection format: " ++ sel))
  else
    match splitAtByte sel (utf8Len sel - 1) with
    | none => .error ()
    | some (numStr, letter) =>
      match parseUsize numStr with
      | some n =>
        if n > 0 then
          let contactIdx := n - 1
          match letter.toList with
          | [] => .error ()
          | c :: _ =>
            if 'a' ≤ c ∧ c ≤ 'z' then
              let letterIdx := c.toNat - 'a'.toNat
              match deferred.get? contactIdx with
              | none =>
                .ok (db, .failure ("Contact number " ++ Nat.repr (contactIdx + 1)
                  ++ " not found"))
              | some contact =>
                match contact.numbers.get? letterIdx with
                | none =>
                  .ok (db, .failure ("Number " ++ letter ++ " not found for contact "
                    ++ Nat.repr (contactIdx + 1)))
                | some (number, _) =>
                  match failAdd contact.name number with
                  | some e =>
                    .ok (db, .failure ("Failed to add " ++ contact.name ++ " ("
                      ++ number ++ "): " ++ e))
                  | none =>
                    .ok (addContact db from_ contact.name number,
                      .success (contact.name ++ " (" ++ number ++ ")"))
            else .ok (db, .failure ("Invalid letter selection: " ++ letter))
        else .ok (db, .failure ("Invalid contact number: " ++ numStr))
      | none => .ok (db, .failure ("Invalid contact number: " ++ numStr))

/-- The selection loop of `handle_pick`: thread the store through the tokens,
collecting success and failure lines in order; a panic aborts everything. -/
def pickTokens (failAdd : String → String → Option String) (db : Db)
    (deferred : List DeferredContact) (from_ : String) :
    List String → Except Unit (Db × List String × List String)
  | [] => .ok (db, [], [])
  | t :: ts =>
    match pickToken failAdd db deferred from_ t with
    | .error () => .error ()
    | .ok (db', .success m) =>
      match pickTokens failAdd db' deferred from_ ts with
      | .error () => .error ()
      | .ok (db'', s, f) => .ok (db'', m :: s, f)
    | .ok (db', .failure m) =>
      match pickTokens failAdd db' deferred from_ ts with
      | .error () => .error ()
      | .ok (db'', s, f) => .ok (db'', s, m :: f)

/-- The response assembly at the end of `handle_pick`. -/
def formatPickResponse (successful failed : List String) : String :=
  let r1 :=
    if successful.isEmpty then ""
    else "Successfully added " ++ Nat.repr successful.length ++ " contact"
      ++ (if successful.length = 1 then "" else "s") ++ ":\n"
      ++ String.join (successful.map (fun c => "• " ++ c ++ "\n"))
  if failed.isEmpty then r1
  else (if r1.isEmpty then r1 else r1 ++ "\n") ++ "Failed to process:\n"
    ++ String.join (failed.map (fun e => "• " ++ e ++ "\n"))

/-- `handle_pick`. `.error ()` models a panic; otherwise the reply plus the
updated store and deferred map come back. After the tokens are processed the
submitter's entry is emptied in place (`retain(|_| false)`), not removed. -/
def handlePick (failAdd : String → String → Option String) (now : Nat) (db : Db)
    (dm : DeferredMap) (from_ selections : String) :
    Except Unit (String × Db × DeferredMap) :=
  let dm1 := cleanupDeferred dm now
  match alGet dm1 from_ with
  | none => .ok ("No pending contacts to pick from.", db, dm1)
  | some deferred =>
    match pickTokens failAdd db deferred from_ (splitCommaTrim selections) with
    | .error () => .error ()
    | .ok (db', succ, failLines) =>
      .ok (formatPickResponse succ failLines, db', alSetIfPresent dm1 from_ [])

/-- One decoded vcard property (name, value, parameters), as delivered by the
external `ical` parser collaborator. -/
structure VProp where
  name : String
  value : Option String
  params : Option (List (String × List String))
deriving DecidableEq, Repr

/-- A decoded card: its property list. -/
abbrev Vcard := List VProp

/-- The `FN` display name of a card. -/
def fnOf (card : Vcard) : Option String :=
  (card.find? (fun p => p.name = "FN")).bind (fun p => p.value)

/-- The `TEL` collection loop of `process_vcard`: canonicalize every TEL value
with the external `canon` collaborator (Rust `E164::from_str`, whose module is
not under `src/`), silently dropping failures, and keep the first value of a
case-insensitive `TYPE` parameter as the description. -/
def telNumbers (canon : String → Option String) (card : Vcard) :
    List (String × Option String) :=
  (card.filter (fun p => p.name = "TEL")).filterMap (fun p =>
    match p.value with
    | none => none
    | some raw =>
      match canon raw with
      | none => none
      | some normalized =>
        let description := p.params.bind (fun params =>
          (params.find? (fun kv => strLower kv.1 = "type")).bind (fun kv => kv.2.head?))
        some (normalized, description))

/-- `ImportResult`. -/
inductive ImportResult where
  | Added | Updated | Unchanged | Deferred
deriving DecidableEq, Repr

/-- The update query of the dedup loop:
`UPDATE contacts SET contact_name = ? WHERE submitter_number = ? AND contact_user_number = ?`. -/
def updateContactName (db : Db) (from_ number name : String) : Db :=
  { db with contacts := db.contacts.map (fun c =>
      if c.submitter_number = from_ ∧ c.contact_user_number = number then
        { c with contact_name := name } else c) }

/-- The dedup loop of `process_vcard`: against a snapshot of the submitter's
existing (number, name) pairs, update names that changed and collect the
numbers that are not yet contacts, in order. Returns the updated store, the
new numbers, and whether any update occurred. -/
def vcardDedup (db : Db) (from_ name : String) (numbers : List (String × Option String)) :
    Db × List (String × Option String) × Bool :=
  let existing := (db.contacts.filter (fun c => c.submitter_number = from_)).map
    (fun c => (c.contact_user_number, c.contact_name))
  numbers.foldl (fun acc nd =>
    match existing.find? (fun e => e.1 = nd.1) with
    | some e =>
      if e.2 ≠ name then (updateContactName acc.1 from_ nd.1 name, acc.2.1, true) else acc
    | none => (acc.1, acc.2.1 ++ [nd], acc.2.2)) (db, [], false)

/-- `process_vcard`: import one decoded card for `from_`. The incoming
`Except` models the `Result<VcardContact, ParserError>` argument; the returned
`Except` models `anyhow::Result`, carrying the error text that the import
report renders. -/
def processVcard (canon : String → Option String) (now : Nat) (db : Db)
    (dm : DeferredMap) (from_ : String) (vcard : Except String Vcard) :
    Except String (ImportResult × Db × DeferredMap) :=
  if (findUser db from_).isNone then
    .error "Please set your name first using the 'name' command before adding contacts"
  else
    match vcard with
    | .error e => .error e
    | .ok card =>
      match fnOf card with
      | none => .error "No name provided"
      | some name =>
        let numbers := telNumbers canon card
        if numbers.isEmpty then .error "No valid phone numbers provided"
        else
          match vcardDedup db from_ name numbers with
          | (db1, newNumbers, updated) =>
            match newNumbers with
            | [] => .ok ((if updated then .Updated else .Unchanged), db1, dm)
            | (number, d) :: rest =>
              if rest.isEmpty then .ok (.Added, addContact db1 from_ name number, dm)
              else .ok (.Deferred, db1, alPush dm from_ ⟨name, (number, d) :: rest, now⟩)

/-- Insertion into a name-ordered list (`ORDER BY contact_name`). -/
def insertByName (c : Contact) : List Contact → List Contact
  | [] => [c]
  | d :: ds => if c.contact_name ≤ d.contact_name then c :: d :: ds else d :: insertByName c ds

/-- `ORDER BY contact_name` on a result set. -/
def sortByName : List Contact → List Contact
  | [] => []
  | c :: cs => insertByName c (sortByName cs)

/-- The `find_contacts` query of `handle_delete`: the submitter's contacts
whose lowercased name contains the lowercased search text, ordered by name. -/
def deleteMatches (db : Db) (from_ name : String) : List Contact :=
  sortByName (db.contacts.filter (fun c =>
    c.submitter_number = from_ && strContains (strLower c.contact_name) (strLower name)))

/-- One rendered match line, `i. name (area code)`, with `"???"` when the
stored number does not canonicalize. `areaCode` models the external
`E164::from_str(..).map(|e| e.area_code())` collaborator. -/
def renderContactLine (areaCode : String → Option String) (i : Nat) (c : Contact) : String :=
  Nat.repr (i + 1) ++ ". " ++ c.contact_name ++ " ("
    ++ (areaCode c.contact_user_number).getD "???" ++ ")"

/-- `handle_delete`: evict expired pending deletions, search, render the match
list, then record one `PendingDeletion` per match under `from:ordinal`,
overwriting token collisions. -/
def handleDelete (areaCode : String → Option String) (now : Nat) (db : Db)
    (pd : PendingMap) (from_ name : String) : String × PendingMap :=
  let pd1 := cleanupPendingDeletions pd now
  let matched := deleteMatches db from_ name
  let list := String.intercalate "\n"
    (matched.enum.map (fun p => renderContactLine areaCode p.1 p.2))
  let response := "Found these contacts matching \"" ++ name ++ "\":\n" ++ list
    ++ "\n\nTo delete contacts, reply \"confirm NUM1, NUM2, ...\", where NUM1, NUM2, etc. are numbers from the list above."
  let pd2 := matched.enum.foldl (fun pd p =>
    alInsert pd (from_ ++ ":" ++ Nat.repr (p.1 + 1)) ⟨p.2.id, now⟩) pd1
  (response, pd2)

/-- The selection-collection loop of `handle_confirm`: resolve each trimmed
ordinal against the pending map, collecting contact ids and per-token error
lines in order. -/
def confirmParse (pd : PendingMap) (from_ selections : String) : List Int × List String :=
  (splitCommaTrim selections).foldl (fun acc numStr =>
    match parseUsize numStr with
    | some n =>
      if n > 0 then
        match alGet pd (from_ ++ ":" ++ Nat.repr n) with
        | some d => (acc.1 ++ [d.contact_id], acc.2)
        | none => (acc.1, acc.2 ++ ["Invalid selection: " ++ Nat.repr n])
      else (acc.1, acc.2 ++ ["Invalid number: " ++ numStr])
    | none => (acc.1, acc.2 ++ ["Invalid number: " ++ numStr])) ([], [])

/-- The deletion transaction of `handle_confirm`: delete the ids in order
inside one transaction; `delFail` is the store-failure oracle — the first
failing delete aborts the transaction (rollback: the caller keeps the
original store) with that error text. -/
def txDeleteAll (delFail : Int → Option String) : Db → List Int → Except String Db
  | db, [] => .ok db
  | db, id :: rest =>
    match delFail id with
    | some e => .error e
    | none =>
      txDeleteAll delFail { db with contacts := db.contacts.filter (fun c => c.id ≠ id) } rest

/-- `handle_confirm`. The first component models `anyhow::Result<String>`: the
reply on success, or the propagated store error (surfaced generically by the
dispatcher). The store and the pending map come back in every case because the
cleanup sweep mutates the process-wide map even when the transaction fails,
while a failed transaction leaves the store untouched. -/
def handleConfirm (delFail : Int → Option String) (areaCode : String → Option String)
    (now : Nat) (db : Db) (pd : PendingMap) (from_ selections : String) :
    Except String String × Db × PendingMap :=
  let pd1 := cleanupPendingDeletions pd now
  match confirmParse pd1 from_ selections with
  | (ids, invalid) =>
    if ids.isEmpty then
      if invalid.isEmpty then (.ok "No valid selections provided.", db, pd1)
      else (.ok ("Errors:\n" ++ String.intercalate "\n" invalid), db, pd1)
    else
      let contacts := ids.filterMap (fun id => db.contacts.find? (fun c => c.id = id))
      match txDeleteAll delFail db ids with
      | .error e => (.error e, db, pd1)
      | .ok db' =>
        let pd2 := contacts.foldl (fun pd c => pd.filter (fun p => p.2.contact_id ≠ c.id)) pd1
        let response := "Deleted " ++ Nat.repr contacts.length ++ " contact"
          ++ (if contacts.length = 1 then "" else "s") ++ ":\n"
          ++ String.join (contacts.map (fun c =>
            "• " ++ c.contact_name ++ " ("
              ++ (areaCode c.contact_user_number).getD "???" ++ ")\n"))
          ++ (if invalid.isEmpty then ""
              else "\nErrors:\n" ++ String.intercalate "\n" invalid)
        (.ok response, db', pd2)

/-- `process_name`: join the remaining words with single spaces; reject an
empty name with the usage string and a name longer than 20 UTF-8 bytes
(Rust `str::len`) with a corrective message stating that byte length. -/
def processName (words : List String) : Except String String :=
  let name := String.intercalate " " words
  if name.isEmpty then .error (Command.usage .name)
  else if utf8Len name > 20 then
    .error ("That name is " ++ Nat.repr (utf8Len name)
      ++ " characters long.\nPlease shorten it to 20 characters or less.")
  else .ok name

/-- The onboarding greeting returned to unknown senders for anything that is
not a `name` command. -/
def onboardingPrompt : String :=
  "Greetings! This is Decision Bot (https://github.com/samcarey/decisionbot).\nTo participate:\n"
    ++ Command.hint .name

/-- `onboard_new_user`: the unknown-sender path. The command argument mirrors
`Option<Result<Command, _>>`. -/
def onboardNewUser (command : Option (Option Command)) (words : List String)
    (from_ : String) (db : Db) : String × Db :=
  match command with
  | some (some .name) =>
    match processName words with
    | .ok name =>
      ("Hello, " ++ name ++ "! " ++ Command.hint .h,
        { db with users := db.users ++ [(from_, name)] })
    | .error hint => (hint, db)
  | _ => (onboardingPrompt, db)

/-- `update users set name = ? where number = ?`. -/
def updateUserName (db : Db) (number name : String) : Db :=
  { db with users := db.users.map (fun u => if u.1 = number then (u.1, name) else u) }

/-- The text path of `process_message` (the media branch is taken only for
webhook payloads carrying a vcard attachment; its per-card work is modelled by
`processVcard`). `.error ()` models a panic; otherwise the
`anyhow::Result<String>` reply plus the updated state come back. -/
def processText (areaCode : String → Option String)
    (failAdd : String → String → Option String) (delFail : Int → Option String)
    (now : Nat) (st : St) (from_ body : String) :
    Except Unit (Except String String × St) :=
  let words := splitAsciiWhitespace (strTrim body)
  let commandWord := words.head?
  let rest := words.tail
  let command := commandWord.map Command.tryFrom
  match findUser st.db from_ with
  | none =>
    match onboardNewUser command rest from_ st.db with
    | (r, db') => .ok (.ok r, { st with db := db' })
  | some user =>
    match command with
    | none => .ok (.ok (Command.hint .h), st)
    | some none =>
      .ok (.ok ("We didn't recognize that command word: \"" ++ commandWord.getD "" ++ "\".\n"
        ++ Command.hint .h), st)
    | some (some cmd) =>
      match cmd with
      | .h =>
        .ok (.ok ("Available commands:\n"
          ++ String.intercalate "\n" (Command.all.map (fun c => "- " ++ c.word)) ++ "\n"
          ++ "\n" ++ Command.hint .info), st)
      | .name =>
        match processName rest with
        | .ok name =>
          .ok (.ok ("Your name has been updated to \"" ++ name ++ "\""),
            { st with db := updateUserName st.db from_ name })
        | .error hint => .ok (.ok hint, st)
      | .stop =>
        .ok (.ok "You've been unsubscribed. Goodbye!",
          { st with db := { st.db with
              users := st.db.users.filter (fun u => u.1 ≠ user.1)
              contacts := st.db.contacts.filter (fun c => c.submitter_number ≠ user.1) } })
      | .info =>
        match rest.head? with
        | some w =>
          match Command.tryFrom w with
          | some c =>
            .ok (.ok (c.usage ++ ", to " ++ c.description ++ "." ++ c.exampleText), st)
          | none => .ok (.ok ("Command \"" ++ w ++ "\" not recognized"), st)
        | none => .ok (.ok (Command.hint .info), st)
      | .contacts =>
        let cs := sortByName (st.db.contacts.filter (fun c => c.submitter_number = from_))
        if cs.isEmpty then .ok (.ok "You don't have any contacts.", st)
        else
          match cs.enum.mapM (fun p => (areaCode p.2.contact_user_number).map (fun a =>
            Nat.repr (p.1 + 1) ++ ". " ++ p.2.contact_name ++ " (" ++ a ++ ")")) with
          | none => .error ()
          | some rendered =>
            .ok (.ok ("Your contacts:\n" ++ String.intercalate "\n" rendered), st)
      | .delete =>
        let name := String.intercalate " " rest
        if name.isEmpty then .ok (.ok (Command.hint .delete), st)
        else
          match handleDelete areaCode now st.db st.pending from_ name with
          | (r, pd') => .ok (.ok r, { st with pending := pd' })
      | .confirm =>
        let nums := String.intercalate " " rest
        if nums.isEmpty then .ok (.ok (Command.hint .confirm), st)
        else
          match handleConfirm delFail areaCode now st.db st.pending from_ nums with
          | (r, db', pd') => .ok (r, { st with db := db', pending := pd' })
      | .pick =>
        let nums := String.intercalate " " rest
        if nums.isEmpty then .ok (.ok (Command.hint .pick), st)
        else
          match handlePick failAdd now st.db st.deferred from_ nums with
          | .error () => .error ()
          | .ok (r, db', dm') => .ok (.ok r, { st with db := db', deferred := dm' })

/-- `handle_incoming_sms` on a plain text message: a processing error is
logged and replaced by the fixed generic reply; a panic (`none`) produces no
reply at all. -/
def handleIncomingSms (areaCode : String → Option String)
    (failAdd : String → String → Option String) (delFail : Int → Option String)
    (now : Nat) (st : St) (from_ body : String) : Option (String × St) :=
  match processText areaCode failAdd delFail now st from_ body with
  | .error () => none
  | .ok (.ok r, st') => some (r, st')
  | .ok (.error _, st') => some ("Internal Server Error!", st')

/-- The number of contact rows for one (submitter, target number) pair. -/
def countPair (db : Db) (s n : String) : Nat :=
  (db.contacts.filter (fun c => c.submitter_number = s ∧ c.contact_user_number = n)).length

theorem alGet_eq_none_iff {α : Type} (m : List (String × α)) (k : String) :
    alGet m k = none ↔ ∀ p ∈ m, p.1 ≠ k := by
  induction m with
  | nil => simp [alGet]
  | cons p rest ih =>
    by_cases h : p.1 = k <;> simp [alGet, h, ih]

theorem alGet_mem {α : Type} {m : List (String × α)} {k : String} {v : α}
    (h : alGet m k = some v) : (k, v) ∈ m := by
  induction m with
  | nil => simp [alGet] at h
  | cons p rest ih =>
    cases p with
    | mk a b =>
      by_cases hp : a = k
      · subst hp
        simp [alGet] at h
        subst h
        exact List.mem_cons_self _ _
      · simp [alGet, hp] at h
        exact List.mem_cons_of_mem _ (ih h)

theorem alGet_append {α : Type} (m1 m2 : List (String × α)) (k : String) :
    alGet (m1 ++ m2) k = ((alGet m1 k).or (alGet m2 k)) := by
  induction m1 with
  | nil => simp [alGet]
  | cons p rest ih =>
    by_cases h : p.1 = k <;> simp [alGet, h, ih]

theorem alGet_filter {α : Type} {m : List (String × α)} {k : String} {v : α}
    (q : String × α → Bool) (h : alGet m k = some v) (hq : q (k, v) = true) :
    alGet (m.filter q) k = some v := by
  induction m with
  | nil => simp [alGet] at h
  | cons p rest ih =>
    cases p with
    | mk a b =>
      by_cases hp : a = k
      · subst hp
        simp [alGet] at h
        subst h
        simp [List.filter_cons, hq, alGet]
      · simp [alGet, hp] at h
        by_cases hqp : q (a, b) = true
        · simp only [List.filter_cons, hqp, if_true]
          simp [alGet, hp]
          exact ih h
        · simp only [List.filter_cons, hqp, if_false, Bool.false_eq_true]
          exact ih h

theorem alGet_filter_none {α : Type} {m : List (String × α)} {k : String}
    (q : String × α → Bool) (h : alGet m k = none) : alGet (m.filter q) k = none := by
  rw [alGet_eq_none_iff] at h ⊢
  intro p hp
  exact h p (List.mem_of_mem_filter hp)

theorem alGet_alSetIfPresent_self {α : Type} {m : List (String × α)} {k : String} {v0 : α}
    (v : α) (h : alGet m k = some v0) : alGet (alSetIfPresent m k v) k = some v := by
  induction m with
  | nil => simp [alGet] at h
  | cons p rest ih =>
    by_cases hp : p.1 = k
    · simp [alSetIfPresent, alGet, hp]
    · simp [alGet, hp] at h
      simp [alSetIfPresent, alGet, hp] at ih ⊢
      exact ih h

theorem alSetIfPresent_of_none {α : Type} {m : List (String × α)} {k : String} (v : α)
    (h : alGet m k = none) : alSetIfPresent m k v = m := by
  rw [alGet_eq_none_iff] at h
  induction m with
  | nil => rfl
  | cons p rest ih =>
    have hp : p.1 ≠ k := h p (List.mem_cons_self _ _)
    have hrest := ih (fun q hq => h q (List.mem_cons_of_mem _ hq))
    simp only [alSetIfPresent, List.map_cons, if_neg hp] at hrest ⊢
    rw [hrest]

theorem alGet_map_overwrite_ne {α : Type} (m : List (String × α)) {k k' : String} (v : α)
    (h : k' ≠ k) :
    alGet (m.map (fun p => if p.1 = k then (k, v) else p)) k' = alGet m k' := by
  induction m with
  | nil => rfl
  | cons p rest ih =>
    by_cases hp : p.1 = k
    · simp [alGet, hp, Ne.symm h, ih]
    · simp [alGet, hp, ih]

theorem alGet_alInsert_ne {α : Type} {m : List (String × α)} {k k' : String} (v : α)
    (h : k' ≠ k) : alGet (alInsert m k v) k' = alGet m k' := by
  unfold alInsert
  by_cases hmem : (alGet m k).isSome
  · simp only [hmem, if_true]
    exact alGet_map_overwrite_ne m v h
  · rw [Bool.not_eq_true] at hmem
    simp only [hmem, Bool.false_eq_true, if_false]
    rw [alGet_append]
    cases hm : alGet m k' with
    | some v' => rfl
    | none => simp [alGet, Ne.symm h]

theorem cleanupDeferred_append (m1 m2 : DeferredMap) (now : Nat) :
    cleanupDeferred (m1 ++ m2) now = cleanupDeferred m1 now ++ cleanupDeferred m2 now := by
  simp [cleanupDeferred, List.filter_append]

theorem alGet_cleanupDeferred_none {m : DeferredMap} {k : String} (now : Nat)
    (h : alGet m k = none) : alGet (cleanupDeferred m now) k = none := by
  rw [alGet_eq_none_iff] at h ⊢
  intro p hp
  obtain ⟨q, hq, rfl⟩ := List.mem_map.1 (List.mem_of_mem_filter hp)
  exact h q hq

theorem cleanupDeferred_mem_fresh {m : DeferredMap} {now : Nat} {p : String × List DeferredContact}
    (h : p ∈ cleanupDeferred m now) :
    ∀ d ∈ p.2, now - d.timestamp ≤ DEFERRED_TIMEOUT := by
  obtain ⟨q, _, rfl⟩ := List.mem_map.1 (List.mem_of_mem_filter h)
  intro d hd
  simpa using (List.mem_filter.1 hd).2

theorem cleanupPendingDeletions_mem_fresh {pd : PendingMap} {now : Nat}
    {p : String × PendingDeletion} (h : p ∈ cleanupPendingDeletions pd now) :
    now - p.2.timestamp ≤ DELETION_TIMEOUT := by
  simpa using (List.mem_filter.1 h).2

theorem cleanupDeferred_idem (m : DeferredMap) (now : Nat) :
    cleanupDeferred (cleanupDeferred m now) now = cleanupDeferred m now := by
  induction m with
  | nil => rfl
  | cons p rest ih =>
    by_cases hempty :
        (p.2.filter (fun c => now - c.timestamp ≤ DEFERRED_TIMEOUT)).isEmpty = true
    · have h1 : cleanupDeferred (p :: rest) now = cleanupDeferred rest now := by
        simp only [cleanupDeferred, List.map_cons, List.filter_cons, hempty, Bool.not_true,
          Bool.false_eq_true, if_false]
      rw [h1]
      exact ih
    · rw [Bool.not_eq_true] at hempty
      have hff : (p.2.filter (fun c => now - c.timestamp ≤ DEFERRED_TIMEOUT)).filter
          (fun c => now - c.timestamp ≤ DEFERRED_TIMEOUT)
          = p.2.filter (fun c => now - c.timestamp ≤ DEFERRED_TIMEOUT) := by
        rw [List.filter_filter]
        exact List.filter_congr (fun a _ => Bool.and_self _)
      have h1 : cleanupDeferred (p :: rest) now
          = (p.1, p.2.filter (fun c => now - c.timestamp ≤ DEFERRED_TIMEOUT))
              :: cleanupDeferred rest now := by
        simp only [cleanupDeferred, List.map_cons, List.filter_cons, hempty, Bool.not_false,
          if_true]
      have h2 : cleanupDeferred
          ((p.1, p.2.filter (fun c => now - c.timestamp ≤ DEFERRED_TIMEOUT))
            :: cleanupDeferred rest now) now
          = (p.1, p.2.filter (fun c => now - c.timestamp ≤ DEFERRED_TIMEOUT))
              :: cleanupDeferred (cleanupDeferred rest now) now := by
        simp only [cleanupDeferred, List.map_cons, List.filter_cons, hff, hempty,
          Bool.not_false, if_true]
      rw [h1, h2, ih]

theorem cleanupPendingDeletions_idem (pd : PendingMap) (now : Nat) :
    cleanupPendingDeletions (cleanupPendingDeletions pd now) now
      = cleanupPendingDeletions pd now := by
  simp [cleanupPendingDeletions, List.filter_filter]

theorem txDeleteAll_error (delFail : Int → Option String) (ids : List Int) (db : Db)
    (hfail : ∃ id, id ∈ ids ∧ (delFail id).isSome) :
    ∃ e, txDeleteAll delFail db ids = .error e := by
  induction ids generalizing db with
  | nil =>
    obtain ⟨w, hw, _⟩ := hfail
    simp at hw
  | cons id rest ih =>
    cases hfid : delFail id with
    | some e => exact ⟨e, by simp [txDeleteAll, hfid]⟩
    | none =>
      obtain ⟨w, hw, hws⟩ := hfail
      rcases List.mem_cons.1 hw with hw1 | hw1
      · subst hw1
        rw [hfid] at hws
        simp at hws
      · have hrest : ∃ i, i ∈ rest ∧ (delFail i).isSome := ⟨w, hw1, hws⟩
        simpa [txDeleteAll, hfid] using ih _ hrest

theorem digitChar_ok {m : Nat} (h : m < 10) :
    (Nat.digitChar m).isDigit = true ∧ (Nat.digitChar m).toNat - 48 = m := by
  interval_cases m <;> exact ⟨by decide, by decide⟩

theorem isDigit_facts {c : Char} (h : c.isDigit = true) :
    c ≠ '+' ∧ c ≠ ',' ∧ isAsciiWs c = false := by
  refine ⟨?_, ?_, ?_⟩
  · rintro rfl
    exact absurd h (by decide)
  · rintro rfl
    exact absurd h (by decide)
  · by_cases h1 : c = ' '
    · subst h1; exact absurd h (by decide)
    by_cases h2 : c = '\t'
    · subst h2; exact absurd h (by decide)
    by_cases h3 : c = '\n'
    · subst h3; exact absurd h (by decide)
    by_cases h4 : c = '\x0d'
    · subst h4; exact absurd h (by decide)
    by_cases h5 : c = '\x0c'
    · subst h5; exact absurd h (by decide)
    simp [isAsciiWs, h1, h2, h3, h4, h5]

theorem toDigitsCore_append (b f n : Nat) (l : List Char) :
    Nat.toDigitsCore b f n l = Nat.toDigitsCore b f n [] ++ l := by
  induction f generalizing n l with
  | zero => simp [Nat.toDigitsCore]
  | succ f ih =>
    simp only [Nat.toDigitsCore]
    by_cases h : n / b = 0
    · simp [h]
    · simp only [h, if_false]
      rw [ih (n / b) (Nat.digitChar (n % b) :: l), ih (n / b) [Nat.digitChar (n % b)]]
      simp

theorem toDigitsCore_spec (f : Nat) : ∀ n, n < 10 ^ f →
    (∀ c ∈ Nat.toDigitsCore 10 f n [], c.isDigit = true) ∧
    (Nat.toDigitsCore 10 f n []).foldl (fun a c => a * 10 + (c.toNat - 48)) 0 = n := by
  induction f with
  | zero =>
    intro n hn
    interval_cases n
    exact ⟨by simp [Nat.toDigitsCore], by simp [Nat.toDigitsCore]⟩
  | succ f ih =>
    intro n hn
    have hmod : n % 10 < 10 := Nat.mod_lt _ (by norm_num)
    simp only [Nat.toDigitsCore]
    by_cases h : n / 10 = 0
    · have h10 : n < 10 := (Nat.div_eq_zero_iff (by norm_num)).1 h
      simp only [h, if_true]
      refine ⟨?_, ?_⟩
      · intro c hc
        simp at hc
        subst hc
        exact (digitChar_ok hmod).1
      · simp only [List.foldl_cons, List.foldl_nil, Nat.zero_mul, Nat.zero_add]
        rw [(digitChar_ok hmod).2, Nat.mod_eq_of_lt h10]
    · simp only [h, if_false]
      rw [toDigitsCore_append]
      have hn' : n / 10 < 10 ^ f := by
        rw [Nat.div_lt_iff_lt_mul (by norm_num : 0 < 10)]
        calc n < 10 ^ (f + 1) := hn
          _ = 10 ^ f * 10 := by rw [Nat.pow_succ]
      obtain ⟨hd, hv⟩ := ih (n / 10) hn'
      refine ⟨?_, ?_⟩
      · intro c hc
        rcases List.mem_append.1 hc with hc | hc
        · exact hd c hc
        · simp at hc
          subst hc
          exact (digitChar_ok hmod).1
      · rw [List.foldl_append, hv]
        simp only [List.foldl_cons, List.foldl_nil]
        rw [(digitChar_ok hmod).2]
        omega

theorem toList_repr (n : Nat) :
    (Nat.repr n).toList = Nat.toDigitsCore 10 (n + 1) n [] := rfl

theorem repr_digits (n : Nat) : ∀ c ∈ (Nat.repr n).toList, c.isDigit = true := by
  rw [toList_repr]
  exact (toDigitsCore_spec (n + 1) n
    (Nat.lt_of_lt_of_le (Nat.lt_pow_self (by norm_num) n)
      (Nat.pow_le_pow_right (by norm_num) (Nat.le_succ n)))).1

theorem repr_ne_nil (n : Nat) : (Nat.repr n).toList ≠ [] := by
  rw [toList_repr]
  simp only [Nat.toDigitsCore]
  by_cases h : n / 10 = 0
  · simp [h]
  · simp only [h, if_false]
    rw [toDigitsCore_append]
    simp

theorem parseUsize_repr (n : Nat) : parseUsize (Nat.repr n) = some n := by
  have hdig := repr_digits n
  have hne := repr_ne_nil n
  have hval : ((Nat.repr n).toList).foldl (fun a c => a * 10 + (c.toNat - 48)) 0 = n := by
    rw [toList_repr]
    exact (toDigitsCore_spec (n + 1) n
      (Nat.lt_of_lt_of_le (Nat.lt_pow_self (by norm_num) n)
        (Nat.pow_le_pow_right (by norm_num) (Nat.le_succ n)))).2
  unfold parseUsize
  have hplus : ((Nat.repr n).toList.head? = some '+') = False := by
    cases hl : (Nat.repr n).toList with
    | nil => exact absurd hl hne
    | cons c cs =>
      have : c.isDigit = true := hdig c (hl ▸ List.mem_cons_self _ _)
      simp [(isDigit_facts this).1]
  simp only [hplus, if_false, eq_self_iff_true]
  have hempty : ((Nat.repr n).toList.isEmpty) = false := by
    cases hl : (Nat.repr n).toList with
    | nil => exact absurd hl hne
    | cons c cs => rfl
  have hall : ((Nat.repr n).toList.all Char.isDigit) = true := List.all_eq_true.2 hdig
  simp only [hempty, Bool.false_eq_true, if_false, hall, eq_self_iff_true, if_true, hval]

theorem natRepr_injective {m n : Nat} (h : Nat.repr m = Nat.repr n) : m = n := by
  have hm := parseUsize_repr m
  rw [h, parseUsize_repr n] at hm
  exact (Option.some.injEq _ _ ▸ hm).symm

theorem dropWhile_eq_self_of {p : Char → Bool} {l : List Char} (h : ∀ c ∈ l, p c = false) :
    l.dropWhile p = l := by
  cases l with
  | nil => rfl
  | cons c cs => simp [List.dropWhile_cons, h c (List.mem_cons_self _ _)]

theorem trimChars_eq_self {l : List Char} (h : ∀ c ∈ l, isAsciiWs c = false) :
    trimChars l = l := by
  unfold trimChars
  rw [dropWhile_eq_self_of h,
    dropWhile_eq_self_of (fun c hc => h c (List.mem_reverse.1 hc)),
    List.reverse_reverse]

theorem splitChar_eq_single {sep : Char} {l : List Char} (h : ∀ c ∈ l, c ≠ sep) :
    splitChar sep l = [l] := by
  induction l with
  | nil => rfl
  | cons c cs ih =>
    have hc : c ≠ sep := h c (List.mem_cons_self _ _)
    rw [splitChar, ih (fun x hx => h x (List.mem_cons_of_mem _ hx))]
    simp [hc]

theorem splitCommaTrim_repr (j : Nat) : splitCommaTrim (Nat.repr j) = [Nat.repr j] := by
  have hd := repr_digits j
  unfold splitCommaTrim
  rw [splitChar_eq_single (fun c hc => (isDigit_facts (hd c hc)).2.1)]
  simp only [List.map_cons, List.map_nil]
  rw [trimChars_eq_self (fun c hc => (isDigit_facts (hd c hc)).2.2)]
  rfl

theorem strAppend_left_cancel {a b c : String} (h : a ++ b = a ++ c) : b = c := by
  have hd := congrArg String.data h
  simp only [String.data_append] at hd
  exact String.ext (List.append_cancel_left hd)

/-- Claim C1: when a `confirm` command resolves one or more valid contact ids
and the store delete fails on any id in the batch, the whole transaction
aborts: `handle_confirm` propagates the error with the store unchanged (no
referenced contact is deleted, only the TTL sweep of the pending map has run),
and the dispatcher surfaces any such propagated error as the fixed generic
reply, never the store error text. -/
theorem c1_confirm_atomicity (delFail : Int → Option String)
    (areaCode : String → Option String) (now : Nat) (db : Db) (pd : PendingMap)
    (from_ sel : String)
    (hids : (confirmParse (cleanupPendingDeletions pd now) from_ sel).1 ≠ [])
    (hfail : ∃ id, id ∈ (confirmParse (cleanupPendingDeletions pd now) from_ sel).1 ∧
      (delFail id).isSome) :
    (∃ e, handleConfirm delFail areaCode now db pd from_ sel
        = (.error e, db, cleanupPendingDeletions pd now)) ∧
    (∀ (areaCode2 : String → Option String) (failAdd : String → String → Option String)
      (st : St) (body e : String) (st' : St),
      processText areaCode2 failAdd delFail now st from_ body = .ok (.error e, st') →
      handleIncomingSms areaCode2 failAdd delFail now st from_ body
        = some ("Internal Server Error!", st')) := by
  constructor
  · cases hcp : confirmParse (cleanupPendingDeletions pd now) from_ sel with
    | mk ids invalid =>
      rw [hcp] at hids hfail
      dsimp only at hids hfail
      obtain ⟨e, he⟩ := txDeleteAll_error delFail ids db hfail
      refine ⟨e, ?_⟩
      have hne : ids.isEmpty = false := by
        cases ids with
        | nil => exact absurd rfl hids
        | cons a l => rfl
      simp only [handleConfirm, hcp, hne, Bool.false_eq_true, if_false, he]
  · intro areaCode2 failAdd st body e st' h
    unfold handleIncomingSms
    rw [h]

/-- Claim C1, witness: a concrete `confirm 1, 2, 3` whose second delete fails. -/
theorem c1_witness :
    ((confirmParse
        (cleanupPendingDeletions [("u:1", ⟨1, 0⟩), ("u:2", ⟨2, 0⟩), ("u:3", ⟨3, 0⟩)] 0)
        "u" "1, 2, 3").1 ≠ []) ∧
    (∃ e, handleConfirm (fun id => if id = 2 then some "disk failure" else none)
        (fun _ => none) 0
        ⟨[("u", "Ulysses")],
          [⟨1, "u", "A", "+15550000001"⟩, ⟨2, "u", "B", "+15550000002"⟩,
            ⟨3, "u", "C", "+15550000003"⟩], 4⟩
        [("u:1", ⟨1, 0⟩), ("u:2", ⟨2, 0⟩), ("u:3", ⟨3, 0⟩)] "u" "1, 2, 3"
        = (.error e,
            ⟨[("u", "Ulysses")],
              [⟨1, "u", "A", "+15550000001"⟩, ⟨2, "u", "B", "+15550000002"⟩,
                ⟨3, "u", "C", "+15550000003"⟩], 4⟩,
            cleanupPendingDeletions
              [("u:1", ⟨1, 0⟩), ("u:2", ⟨2, 0⟩), ("u:3", ⟨3, 0⟩)] 0)) :=
  ⟨by decide,
    (c1_confirm_atomicity (fun id => if id = 2 then some "disk failure" else none)
      (fun _ => none) 0
      ⟨[("u", "Ulysses")],
        [⟨1, "u", "A", "+15550000001"⟩, ⟨2, "u", "B", "+15550000002"⟩,
          ⟨3, "u", "C", "+15550000003"⟩], 4⟩
      [("u:1", ⟨1, 0⟩), ("u:2", ⟨2, 0⟩), ("u:3", ⟨3, 0⟩)] "u" "1, 2, 3"
      (by decide) ⟨2, by decide⟩).1⟩

/-- Claim C5 (amended): a store failure that makes message processing return
an error is surfaced to the sender only as the fixed generic internal-error
reply; however (see the counterexample) store failures during per-token `pick`
inserts — and likewise per-card vcard import failures, whose error text the
report of the import renders the same way — embed the raw store error text in
the itemized reply. -/
theorem c5_generic_surface (areaCode : String → Option String)
    (failAdd : String → String → Option String) (delFail : Int → Option String)
    (now : Nat) (st : St) (from_ body e : String) (st' : St)
    (h : processText areaCode failAdd delFail now st from_ body = .ok (.error e, st')) :
    handleIncomingSms areaCode failAdd delFail now st from_ body
      = some ("Internal Server Error!", st') := by
  unfold handleIncomingSms
  rw [h]

/-- Claim C5, witness: a concrete `confirm 1` whose store delete fails with
`disk`; the sender gets only the generic reply. -/
theorem c5_witness :
    (processText (fun _ => none) (fun _ _ => none) (fun _ => some "disk") 0
        ⟨⟨[("u", "Ulysses")], [⟨5, "u", "Bob", "+15551234567"⟩], 6⟩, [], [("u:1", ⟨5, 0⟩)]⟩
        "u" "confirm 1"
      = .ok (.error "disk",
          ⟨⟨[("u", "Ulysses")], [⟨5, "u", "Bob", "+15551234567"⟩], 6⟩, [],
            [("u:1", ⟨5, 0⟩)]⟩)) ∧
    handleIncomingSms (fun _ => none) (fun _ _ => none) (fun _ => some "disk") 0
        ⟨⟨[("u", "Ulysses")], [⟨5, "u", "Bob", "+15551234567"⟩], 6⟩, [], [("u:1", ⟨5, 0⟩)]⟩
        "u" "confirm 1"
      = some ("Internal Server Error!",
          ⟨⟨[("u", "Ulysses")], [⟨5, "u", "Bob", "+15551234567"⟩], 6⟩, [],
            [("u:1", ⟨5, 0⟩)]⟩) :=
  ⟨by decide,
    c5_generic_surface (fun _ => none) (fun _ _ => none) (fun _ => some "disk") 0
      ⟨⟨[("u", "Ulysses")], [⟨5, "u", "Bob", "+15551234567"⟩], 6⟩, [], [("u:1", ⟨5, 0⟩)]⟩
      "u" "confirm 1" "disk"
      ⟨⟨[("u", "Ulysses")], [⟨5, "u", "Bob", "+15551234567"⟩], 6⟩, [], [("u:1", ⟨5, 0⟩)]⟩
      (by decide)⟩

/-- Claim C4 (amended): for an unknown sender, any input whose leading token
does not parse to the `name` command returns the onboarding prompt and creates
no User row; a `name` command whose argument `process_name` rejects (empty, or
longer than 20 bytes) returns that corrective reply instead of the onboarding
prompt, still creating no User row. -/
theorem c4_onboarding (areaCode : String → Option String)
    (failAdd : String → String → Option String) (delFail : Int → Option String)
    (now : Nat) (st : St) (from_ body : String)
    (hnouser : findUser st.db from_ = none) :
    ((splitAsciiWhitespace (strTrim body)).head?.map Command.tryFrom ≠ some (some .name) →
      processText areaCode failAdd delFail now st from_ body
        = .ok (.ok onboardingPrompt, st)) ∧
    (∀ e, (splitAsciiWhitespace (strTrim body)).head?.map Command.tryFrom
        = some (some .name) →
      processName (splitAsciiWhitespace (strTrim body)).tail = .error e →
      processText areaCode failAdd delFail now st from_ body = .ok (.ok e, st)) := by
  constructor
  · intro hcmd
    have hob : onboardNewUser
        ((splitAsciiWhitespace (strTrim body)).head?.map Command.tryFrom)
        (splitAsciiWhitespace (strTrim body)).tail from_ st.db
        = (onboardingPrompt, st.db) := by
      unfold onboardNewUser
      cases hc : (splitAsciiWhitespace (strTrim body)).head?.map Command.tryFrom with
      | none => rfl
      | some oc =>
        cases oc with
        | none => rfl
        | some c =>
          cases c
          all_goals first
          | exact absurd hc hcmd
          | rfl
    simp only [processText, hnouser, hob]
  · intro e hcmd hpn
    have hob : onboardNewUser
        ((splitAsciiWhitespace (strTrim body)).head?.map Command.tryFrom)
        (splitAsciiWhitespace (strTrim body)).tail from_ st.db = (e, st.db) := by
      rw [hcmd]
      unfold onboardNewUser
      rw [hpn]
    simp only [processText, hnouser, hob]

/-- Claim C4, witness: an unknown sender texting `hello` gets the onboarding
prompt and no User row is created. -/
theorem c4_witness :
    processText (fun _ => none) (fun _ _ => none) (fun _ => none) 0
        ⟨⟨[], [], 0⟩, [], []⟩ "+15551230000" "hello"
      = .ok (.ok onboardingPrompt, ⟨⟨[], [], 0⟩, [], []⟩) :=
  (c4_onboarding (fun _ => none) (fun _ _ => none) (fun _ => none) 0
    ⟨⟨[], [], 0⟩, [], []⟩ "+15551230000" "hello" (by decide)).1 (by decide)

/-- Claim C9 (amended): for a known sender, `name <text>` updates the stored
display name exactly when the joined text is non-empty and its UTF-8 byte
length (Rust `str::len`) is at most 20; a longer name is rejected with a
corrective reply stating its byte length, leaving the stored name unchanged;
an empty name returns the usage string. -/
theorem c9_name_length (areaCode : String → Option String)
    (failAdd : String → String → Option String) (delFail : Int → Option String)
    (now : Nat) (st : St) (from_ body : String) (rest : List String)
    (huser : (findUser st.db from_).isSome)
    (hwords : splitAsciiWhitespace (strTrim body) = "name" :: rest) :
    ((String.intercalate " " rest).isEmpty = false →
      utf8Len (String.intercalate " " rest) ≤ 20 →
      processText areaCode failAdd delFail now st from_ body
        = .ok (.ok ("Your name has been updated to \""
              ++ String.intercalate " " rest ++ "\""),
            { st with db := updateUserName st.db from_ (String.intercalate " " rest) })) ∧
    (utf8Len (String.intercalate " " rest) > 20 →
      processText areaCode failAdd delFail now st from_ body
        = .ok (.ok ("That name is " ++ Nat.repr (utf8Len (String.intercalate " " rest))
            ++ " characters long.\nPlease shorten it to 20 characters or less."), st)) ∧
    ((String.intercalate " " rest).isEmpty = true →
      processText areaCode failAdd delFail now st from_ body
        = .ok (.ok (Command.usage .name), st)) := by
  obtain ⟨u, hu⟩ := Option.isSome_iff_exists.mp huser
  have htf : Command.tryFrom "name" = some Command.name := by decide
  refine ⟨?_, ?_, ?_⟩
  · intro h1 h2
    have hnp : processName rest = .ok (String.intercalate " " rest) := by
      have hle := Nat.not_lt.2 h2
      simp [processName, h1, hle]
    simp only [processText, hwords, hu, List.head?_cons, List.tail_cons, Option.map_some',
      htf, hnp]
  · intro h2
    have hnp : processName rest
        = .error ("That name is " ++ Nat.repr (utf8Len (String.intercalate " " rest))
            ++ " characters long.\nPlease shorten it to 20 characters or less.") := by
      have hne : (String.intercalate " " rest).isEmpty = false := by
        by_contra hc
        rw [Bool.not_eq_false, String.isEmpty_iff] at hc
        rw [hc] at h2
        exact absurd h2 (by decide)
      simp [processName, hne, h2]
    simp only [processText, hwords, hu, List.head?_cons, List.tail_cons, Option.map_some',
      htf, hnp]
  · intro h1
    have hnp : processName rest = .error (Command.usage .name) := by
      simp [processName, h1]
    simp only [processText, hwords, hu, List.head?_cons, List.tail_cons, Option.map_some',
      htf, hnp]

/-- Claim C9, witness: `name Alice` from a known sender updates the stored
display name. -/
theorem c9_witness :
    processText (fun _ => none) (fun _ _ => none) (fun _ => none) 0
        ⟨⟨[("u", "Old")], [], 0⟩, [], []⟩ "u" "name Alice"
      = .ok (.ok "Your name has been updated to \"Alice\"",
          ⟨⟨[("u", "Alice")], [], 0⟩, [], []⟩) := by
  have h := (c9_name_length (fun _ => none) (fun _ _ => none) (fun _ => none) 0
    ⟨⟨[("u", "Old")], [], 0⟩, [], []⟩ "u" "name Alice" ["Alice"] (by decide) (by decide)).1
    (by decide) (by decide)
  exact h.trans (by decide)

theorem mem_foldl_filter {β γ : Type} (f : γ → β → Bool) (l : List γ) (pd : List β)
    {p : β} (h : p ∈ l.foldl (fun acc c => acc.filter (f c)) pd) : p ∈ pd := by
  induction l generalizing pd with
  | nil => simpa using h
  | cons c cs ih => exact List.mem_of_mem_filter (ih _ h)

/-- Claim C7 (amended): an expired DeferredContact or PendingDeletion can
never be resolved by a later `pick` or `confirm`: both handlers behave
identically whether or not expired records were pre-purged, and after a `pick`
or `confirm` every record remaining in the corresponding map is unexpired (the
handlers purge on entry). The original claim's "removed on the next access to
that map" fails for the access that records a new deferral (see the
counterexample). -/
theorem c7_ttl_expiry (failAdd : String → String → Option String)
    (delFail : Int → Option String) (areaCode : String → Option String)
    (now : Nat) (db : Db) (dm : DeferredMap) (pd : PendingMap) (from_ sel : String) :
    handlePick failAdd now db (cleanupDeferred dm now) from_ sel
      = handlePick failAdd now db dm from_ sel ∧
    (∀ r db' dm'', handlePick failAdd now db dm from_ sel = .ok (r, db', dm'') →
      ∀ p ∈ dm'', ∀ d ∈ p.2, now - d.timestamp ≤ DEFERRED_TIMEOUT) ∧
    handleConfirm delFail areaCode now db (cleanupPendingDeletions pd now) from_ sel
      = handleConfirm delFail areaCode now db pd from_ sel ∧
    (∀ res db' pd', handleConfirm delFail areaCode now db pd from_ sel = (res, db', pd') →
      ∀ p ∈ pd', now - p.2.timestamp ≤ DELETION_TIMEOUT) := by
  refine ⟨?_, ?_, ?_, ?_⟩
  · simp only [handlePick, cleanupDeferred_idem]
  · intro r db' dm'' h
    cases halg : alGet (cleanupDeferred dm now) from_ with
    | none =>
      simp only [handlePick, halg, Except.ok.injEq, Prod.mk.injEq] at h
      obtain ⟨-, -, h3⟩ := h
      subst h3
      intro p hp d hd
      exact cleanupDeferred_mem_fresh hp d hd
    | some deferred =>
      simp only [handlePick, halg] at h
      cases hpt : pickTokens failAdd db deferred from_ (splitCommaTrim sel) with
      | error u =>
        rw [hpt] at h
        cases u
        simp at h
      | ok t =>
        obtain ⟨db2, succ, fl⟩ := t
        rw [hpt] at h
        simp only [Except.ok.injEq, Prod.mk.injEq] at h
        obtain ⟨-, -, h3⟩ := h
        subst h3
        intro p hp d hd
        obtain ⟨q, hq, hpq⟩ := List.mem_map.1 hp
        by_cases hqk : q.1 = from_
        · rw [if_pos hqk] at hpq
          cases hpq
          simp at hd
        · rw [if_neg hqk] at hpq
          subst hpq
          exact cleanupDeferred_mem_fresh hq d hd
  · simp only [handleConfirm, cleanupPendingDeletions_idem]
  · intro res db' pd' h
    cases hcp : confirmParse (cleanupPendingDeletions pd now) from_ sel with
    | mk ids invalid =>
      simp only [handleConfirm, hcp] at h
      by_cases hids : ids.isEmpty = true
      · by_cases hinv : invalid.isEmpty = true
        · simp only [hids, hinv, if_true, Prod.mk.injEq] at h
          obtain ⟨-, -, h3⟩ := h
          subst h3
          intro p hp
          exact cleanupPendingDeletions_mem_fresh hp
        · rw [Bool.not_eq_true] at hinv
          simp only [hids, hinv, Bool.false_eq_true, if_true, if_false, Prod.mk.injEq] at h
          obtain ⟨-, -, h3⟩ := h
          subst h3
          intro p hp
          exact cleanupPendingDeletions_mem_fresh hp
      · rw [Bool.not_eq_true] at hids
        simp only [hids, Bool.false_eq_true, if_false] at h
        cases htx : txDeleteAll delFail db ids with
        | error e =>
          rw [htx] at h
          simp only [Prod.mk.injEq] at h
          obtain ⟨-, -, h3⟩ := h
          subst h3
          intro p hp
          exact cleanupPendingDeletions_mem_fresh hp
        | ok db2 =>
          rw [htx] at h
          simp only [Prod.mk.injEq] at h
          obtain ⟨-, -, h3⟩ := h
          subst h3
          intro p hp
          exact cleanupPendingDeletions_mem_fresh (mem_foldl_filter _ _ _ hp)

/-- Claim C7, witness: pre-purging the deferred map does not change what a
concrete `pick` does, and after that `pick` every remaining deferred record is
unexpired. -/
theorem c7_witness :
    (handlePick (fun _ _ => none) 400 ⟨[("u", "Ulysses")], [], 0⟩
        (cleanupDeferred [("u", [⟨"Bob", [("+15551234567", none)], 200⟩])] 400) "u" "1a"
      = handlePick (fun _ _ => none) 400 ⟨[("u", "Ulysses")], [], 0⟩
        [("u", [⟨"Bob", [("+15551234567", none)], 200⟩])] "u" "1a") ∧
    (∀ p ∈ ([("u", [])] : DeferredMap), ∀ d ∈ p.2, 400 - d.timestamp ≤ DEFERRED_TIMEOUT) :=
  ⟨(c7_ttl_expiry (fun _ _ => none) (fun _ => none) (fun _ => none) 400
      ⟨[("u", "Ulysses")], [], 0⟩ [("u", [⟨"Bob", [("+15551234567", none)], 200⟩])] []
      "u" "1a").1,
    (c7_ttl_expiry (fun _ _ => none) (fun _ => none) (fun _ => none) 400
      ⟨[("u", "Ulysses")], [], 0⟩ [("u", [⟨"Bob", [("+15551234567", none)], 200⟩])] []
      "u" "1a").2.1 "Successfully added 1 contact:\n• Bob (+15551234567)\n"
      ⟨[("u", "Ulysses"), ("+15551234567", "Bob")], [⟨0, "u", "Bob", "+15551234567"⟩], 1⟩
      [("u", [])] (by decide)⟩

/-- Claim C8 (amended): a syntactically valid `confirm` ordinal whose
pending-deletion token exists but whose referenced contact row is absent
produces no per-item message: the contact is silently omitted from the reply,
while the rest of the batch continues (other resolved contacts are still
deleted and reported). Only an absent or expired token produces a per-item
`Invalid selection` message. -/
theorem c8_confirm_absent_row (delFail : Int → Option String)
    (areaCode : String → Option String) (now : Nat) (db : Db) (pd : PendingMap)
    (from_ sel s1 s2 : String) (n1 n2 : Nat) (d1 d2 : PendingDeletion) (c1v : Contact)
    (hsplit : splitCommaTrim sel = [s1, s2])
    (hp1 : parseUsize s1 = some n1) (hn1 : 0 < n1)
    (ht1 : alGet (cleanupPendingDeletions pd now) (from_ ++ ":" ++ Nat.repr n1) = some d1)
    (hc1 : db.contacts.find? (fun c => c.id = d1.contact_id) = some c1v)
    (hp2 : parseUsize s2 = some n2) (hn2 : 0 < n2)
    (ht2 : alGet (cleanupPendingDeletions pd now) (from_ ++ ":" ++ Nat.repr n2) = some d2)
    (hc2 : db.contacts.find? (fun c => c.id = d2.contact_id) = none)
    (hdel1 : delFail d1.contact_id = none) (hdel2 : delFail d2.contact_id = none) :
    handleConfirm delFail areaCode now db pd from_ sel
      = (.ok ("Deleted 1 contact:\n• " ++ c1v.contact_name ++ " ("
            ++ (areaCode c1v.contact_user_number).getD "???" ++ ")\n"),
         { db with contacts :=
             ((db.contacts.filter (fun c => c.id ≠ d1.contact_id)).filter
               (fun c => c.id ≠ d2.contact_id)) },
         (cleanupPendingDeletions pd now).filter
           (fun p => p.2.contact_id ≠ c1v.id)) := by
  have hparse : confirmParse (cleanupPendingDeletions pd now) from_ sel
      = ([d1.contact_id, d2.contact_id], []) := by
    simp only [confirmParse, hsplit, List.foldl_cons, List.foldl_nil, hp1, hp2, ht1, ht2]
    simp [hn1, hn2]
  have hcontacts : List.filterMap
      (fun id => db.contacts.find? (fun c => c.id = id)) [d1.contact_id, d2.contact_id]
      = [c1v] := by
    simp [List.filterMap_cons, hc1, hc2]
  have htx : txDeleteAll delFail db [d1.contact_id, d2.contact_id]
      = .ok { db with contacts :=
          ((db.contacts.filter (fun c => c.id ≠ d1.contact_id)).filter
            (fun c => c.id ≠ d2.contact_id)) } := by
    simp [txDeleteAll, hdel1, hdel2]
  have hr : Nat.repr 1 = "1" := by decide
  simp only [handleConfirm, hparse, List.isEmpty_cons, Bool.false_eq_true, if_false,
    hcontacts, htx, List.foldl_cons, List.foldl_nil, List.length_cons, List.length_nil,
    List.map_cons, List.map_nil, List.isEmpty_nil, if_true]
  simp [String.join, List.foldl_cons, List.foldl_nil, ← String.append_assoc, hr]

/-- Claim C8, witness: token `u:2` exists but its contact (id 9) is absent:
the reply mentions only the deleted contact `A`, with no per-item message. -/
theorem c8_witness :
    handleConfirm (fun _ => none) (fun _ => none) 0
        ⟨[("u", "Ulysses")], [⟨1, "u", "A", "+15550000001"⟩], 2⟩
        [("u:1", ⟨1, 0⟩), ("u:2", ⟨9, 0⟩)] "u" "1, 2"
      = (.ok "Deleted 1 contact:\n• A (???)\n",
          ⟨[("u", "Ulysses")], [], 2⟩,
          [("u:2", ⟨9, 0⟩)]) := by
  have h := c8_confirm_absent_row (fun _ => none) (fun _ => none) 0
      ⟨[("u", "Ulysses")], [⟨1, "u", "A", "+15550000001"⟩], 2⟩
      [("u:1", ⟨1, 0⟩), ("u:2", ⟨9, 0⟩)] "u" "1, 2" "1" "2" 1 2 ⟨1, 0⟩ ⟨9, 0⟩
      ⟨1, "u", "A", "+15550000001"⟩ (by decide) (by decide) (by decide) (by decide)
      (by decide) (by decide) (by decide) (by decide) (by decide) (by decide) (by decide)
  exact h.trans (by decide)

theorem existing_find_none (db : Db) (from_ n : String)
    (h : ∀ c ∈ db.contacts, c.submitter_number = from_ → c.contact_user_number ≠ n) :
    ((db.contacts.filter (fun c => c.submitter_number = from_)).map
      (fun c => (c.contact_user_number, c.contact_name))).find? (fun e => e.1 = n) = none := by
  rw [List.find?_eq_none]
  intro x hx
  obtain ⟨c, hc, rfl⟩ := List.mem_map.1 hx
  have hcmem := List.mem_filter.1 hc
  simp only [decide_eq_true_eq] at hcmem
  simp only [decide_eq_true_eq]
  exact h c hcmem.1 hcmem.2

/-- Claim C3: for a known submitter, a card with one valid not-yet-owned
number imports as `Added` (inserting exactly that contact row); importing the
same card again yields `Unchanged` with the store untouched; the contacts
table ends with exactly one row for the (submitter, number) pair and the row
count of every other pair of that submitter is unchanged. -/
theorem c3_idempotent_import (canon : String → Option String) (now now2 : Nat)
    (db : Db) (dm dm2 : DeferredMap) (from_ nm c : String) (d : Option String)
    (card : Vcard)
    (huser : (findUser db from_).isSome)
    (hfn : fnOf card = some nm)
    (htel : telNumbers canon card = [(c, d)])
    (hnot : ∀ x ∈ db.contacts, x.submitter_number = from_ → x.contact_user_number ≠ c) :
    processVcard canon now db dm from_ (.ok card)
      = .ok (.Added, addContact db from_ nm c, dm) ∧
    processVcard canon now2 (addContact db from_ nm c) dm2 from_ (.ok card)
      = .ok (.Unchanged, addContact db from_ nm c, dm2) ∧
    countPair (addContact db from_ nm c) from_ c = 1 ∧
    (∀ n, n ≠ c → countPair (addContact db from_ nm c) from_ n = countPair db from_ n) := by
  have hnone : (findUser db from_).isNone = false := by
    cases hfu : findUser db from_
    · rw [hfu] at huser
      simp at huser
    · rfl
  have hfind := existing_find_none db from_ c hnot
  have hded : vcardDedup db from_ nm [(c, d)] = (db, [(c, d)], false) := by
    simp only [vcardDedup, List.foldl_cons, List.foldl_nil, hfind]
    simp
  refine ⟨?_, ?_, ?_, ?_⟩
  · simp only [processVcard, hnone, Bool.false_eq_true, if_false, hfn, htel, hded,
      List.isEmpty_cons, List.isEmpty_nil, if_true]
  · have hu2 : (findUser (addContact db from_ nm c) from_).isNone = false := by
      obtain ⟨u, hu⟩ := Option.isSome_iff_exists.mp huser
      unfold findUser at hu ⊢
      unfold addContact
      by_cases hcu : (findUser db c).isSome = true
      · rw [if_pos hcu, hu]
        rfl
      · rw [if_neg hcu, List.find?_append, hu]
        rfl
    have hcce : (addContact db from_ nm c).contacts
        = db.contacts ++ [(⟨db.nextId, from_, nm, c⟩ : Contact)] := rfl
    have hfind2 : (((addContact db from_ nm c).contacts.filter
        (fun x => x.submitter_number = from_)).map
        (fun x => (x.contact_user_number, x.contact_name))).find? (fun e => e.1 = c)
        = some (c, nm) := by
      rw [hcce, List.filter_append, List.map_append, List.find?_append, hfind]
      simp [List.filter_cons]
    have hded2 : vcardDedup (addContact db from_ nm c) from_ nm [(c, d)]
        = (addContact db from_ nm c, [], false) := by
      simp only [vcardDedup, List.foldl_cons, List.foldl_nil, hfind2]
      simp
    simp only [processVcard, hu2, Bool.false_eq_true, if_false, hfn, htel, hded2,
      List.isEmpty_cons, if_true]
  · have hcount0 : countPair db from_ c = 0 := by
      unfold countPair
      rw [List.length_eq_zero, List.filter_eq_nil_iff]
      intro x hx
      simp only [decide_eq_true_eq, not_and]
      exact fun h1 => hnot x hx h1
    have hcce : (addContact db from_ nm c).contacts
        = db.contacts ++ [(⟨db.nextId, from_, nm, c⟩ : Contact)] := rfl
    unfold countPair at hcount0 ⊢
    rw [hcce, List.filter_append, List.length_append, hcount0]
    simp [List.filter_cons]
  · intro n hn
    have hcce : (addContact db from_ nm c).contacts
        = db.contacts ++ [(⟨db.nextId, from_, nm, c⟩ : Contact)] := rfl
    unfold countPair
    rw [hcce, List.filter_append, List.length_append]
    simp [List.filter_cons, Ne.symm hn]

/-- Claim C3, witness: importing `FN Bob, TEL +15559876543` twice. -/
theorem c3_witness :
    processVcard (fun s => some s) 0 ⟨[("u", "Ulysses")], [], 0⟩ [] "u"
        (.ok [⟨"FN", some "Bob", none⟩, ⟨"TEL", some "+15559876543", none⟩])
      = .ok (.Added, addContact ⟨[("u", "Ulysses")], [], 0⟩ "u" "Bob" "+15559876543", []) ∧
    processVcard (fun s => some s) 7
        (addContact ⟨[("u", "Ulysses")], [], 0⟩ "u" "Bob" "+15559876543") [] "u"
        (.ok [⟨"FN", some "Bob", none⟩, ⟨"TEL", some "+15559876543", none⟩])
      = .ok (.Unchanged,
          addContact ⟨[("u", "Ulysses")], [], 0⟩ "u" "Bob" "+15559876543", []) ∧
    countPair (addContact ⟨[("u", "Ulysses")], [], 0⟩ "u" "Bob" "+15559876543")
        "u" "+15559876543" = 1 :=
  have h := c3_idempotent_import (fun s => some s) 0 7 ⟨[("u", "Ulysses")], [], 0⟩ [] []
    "u" "Bob" "+15559876543" none
    [⟨"FN", some "Bob", none⟩, ⟨"TEL", some "+15559876543", none⟩]
    (by decide) (by decide) (by decide) (by decide)
  ⟨h.1, h.2.1, h.2.2.1⟩

/-- Claim C2: for a known submitter with no pending deferrals, a card with
exactly two valid not-yet-owned numbers imports as `Deferred` and inserts
nothing; a valid `pick 1a` within the TTL inserts exactly one contact (the
first number) and leaves the submitter's deferred entry emptied; a second
`pick 1a` then returns the fixed nothing-pending reply and changes nothing in
the store; and whenever a `pick` from that submitter completes without
panicking — whatever the selections and per-token outcomes — the submitter's
entire deferred list is cleared. -/
theorem c2_deferral_round_trip (canon : String → Option String) (now now2 : Nat)
    (db : Db) (dm : DeferredMap) (from_ nm c1 c2 : String) (d1 d2 : Option String)
    (card : Vcard)
    (huser : (findUser db from_).isSome)
    (hfn : fnOf card = some nm)
    (htel : telNumbers canon card = [(c1, d1), (c2, d2)])
    (hnot1 : ∀ x ∈ db.contacts, x.submitter_number = from_ → x.contact_user_number ≠ c1)
    (hnot2 : ∀ x ∈ db.contacts, x.submitter_number = from_ → x.contact_user_number ≠ c2)
    (hdm : alGet dm from_ = none)
    (htime : now2 - now ≤ DEFERRED_TIMEOUT) :
    processVcard canon now db dm from_ (.ok card)
      = .ok (.Deferred, db,
          dm ++ [(from_, [⟨nm, [(c1, d1), (c2, d2)], now⟩])]) ∧
    handlePick (fun _ _ => none) now2 db
        (dm ++ [(from_, [⟨nm, [(c1, d1), (c2, d2)], now⟩])]) from_ "1a"
      = .ok (formatPickResponse [nm ++ " (" ++ c1 ++ ")"] [],
          addContact db from_ nm c1,
          alSetIfPresent
            (cleanupDeferred (dm ++ [(from_, [⟨nm, [(c1, d1), (c2, d2)], now⟩])]) now2)
            from_ []) ∧
    (addContact db from_ nm c1).contacts
      = db.contacts ++ [⟨db.nextId, from_, nm, c1⟩] ∧
    (∀ (failAdd3 : String → String → Option String) (now3 : Nat),
      handlePick failAdd3 now3 (addContact db from_ nm c1)
          (alSetIfPresent
            (cleanupDeferred (dm ++ [(from_, [⟨nm, [(c1, d1), (c2, d2)], now⟩])]) now2)
            from_ []) from_ "1a"
        = .ok ("No pending contacts to pick from.", addContact db from_ nm c1,
            cleanupDeferred
              (alSetIfPresent
                (cleanupDeferred (dm ++ [(from_, [⟨nm, [(c1, d1), (c2, d2)], now⟩])]) now2)
                from_ []) now3)) ∧
    (∀ (sel : String) (fa : String → String → Option String) (r : String) (db' : Db)
        (dm'' : DeferredMap),
      handlePick fa now2 db (dm ++ [(from_, [⟨nm, [(c1, d1), (c2, d2)], now⟩])]) from_ sel
        = .ok (r, db', dm'') →
      alGet dm'' from_ = some []) := by
  have hnone : (findUser db from_).isNone = false := by
    cases hfu : findUser db from_
    · rw [hfu] at huser
      simp at huser
    · rfl
  have hfind1 := existing_find_none db from_ c1 hnot1
  have hfind2 := existing_find_none db from_ c2 hnot2
  have hded : vcardDedup db from_ nm [(c1, d1), (c2, d2)]
      = (db, [(c1, d1), (c2, d2)], false) := by
    simp only [vcardDedup, List.foldl_cons, List.foldl_nil, hfind1, hfind2]
    simp
  have hpush : alPush dm from_ (⟨nm, [(c1, d1), (c2, d2)], now⟩ : DeferredContact)
      = dm ++ [(from_, [⟨nm, [(c1, d1), (c2, d2)], now⟩])] := by
    unfold alPush
    rw [hdm]
    rfl
  have hcdm : alGet (cleanupDeferred dm now2) from_ = none :=
    alGet_cleanupDeferred_none now2 hdm
  have hctail : cleanupDeferred [(from_, [⟨nm, [(c1, d1), (c2, d2)], now⟩])] now2
      = [(from_, [⟨nm, [(c1, d1), (c2, d2)], now⟩])] := by
    have htime' : now2 ≤ DEFERRED_TIMEOUT + now := by
      have := htime
      unfold DEFERRED_TIMEOUT at this ⊢
      omega
    simp [cleanupDeferred, htime']
  have hcd : cleanupDeferred (dm ++ [(from_, [⟨nm, [(c1, d1), (c2, d2)], now⟩])]) now2
      = cleanupDeferred dm now2 ++ [(from_, [⟨nm, [(c1, d1), (c2, d2)], now⟩])] := by
    rw [cleanupDeferred_append, hctail]
  have halg1 : alGet
      (cleanupDeferred (dm ++ [(from_, [⟨nm, [(c1, d1), (c2, d2)], now⟩])]) now2) from_
      = some [⟨nm, [(c1, d1), (c2, d2)], now⟩] := by
    rw [hcd, alGet_append, hcdm]
    simp [alGet]
  have hsp : splitCommaTrim "1a" = ["1a"] := by decide
  have hpt : pickTokens (fun _ _ => none) db [⟨nm, [(c1, d1), (c2, d2)], now⟩] from_ ["1a"]
      = .ok (addContact db from_ nm c1, [nm ++ " (" ++ c1 ++ ")"], []) := by
    have e1 : utf8Len "1a" = 2 := by decide
    have e2 : splitAtByte "1a" 1 = some ("1", "a") := by decide
    have e3 : parseUsize "1" = some 1 := by decide
    have e4 : ("a" : String).toList = ['a'] := by decide
    simp only [pickTokens, pickToken, e1, e2, e3, e4]
    norm_num [List.get?]
    simp [show ('a' : Char) ≤ 'z' by decide]
  refine ⟨?_, ?_, rfl, ?_, ?_⟩
  · simp only [processVcard, hnone, Bool.false_eq_true, if_false, hfn, htel, hded, hpush,
      List.isEmpty_cons, List.isEmpty_nil, if_true]
  · simp only [handlePick, halg1, hsp, hpt]
  · intro failAdd3 now3
    have hset : alSetIfPresent
        (cleanupDeferred (dm ++ [(from_, [⟨nm, [(c1, d1), (c2, d2)], now⟩])]) now2) from_ []
        = cleanupDeferred dm now2 ++ [(from_, [])] := by
      rw [hcd]
      unfold alSetIfPresent
      rw [List.map_append]
      congr 1
      · exact alSetIfPresent_of_none [] hcdm
      · simp
    have halg3 : alGet (cleanupDeferred
        (alSetIfPresent
          (cleanupDeferred (dm ++ [(from_, [⟨nm, [(c1, d1), (c2, d2)], now⟩])]) now2)
          from_ []) now3) from_ = none := by
      rw [hset, cleanupDeferred_append, alGet_append,
        alGet_cleanupDeferred_none now3 hcdm]
      simp [cleanupDeferred, alGet]
    simp only [handlePick, halg3]
  · intro sel fa r db' dm'' h
    simp only [handlePick, halg1] at h
    cases hptx : pickTokens fa db [⟨nm, [(c1, d1), (c2, d2)], now⟩] from_
        (splitCommaTrim sel) with
    | error u =>
      rw [hptx] at h
      cases u
      simp at h
    | ok t =>
      obtain ⟨db2, succ, fl⟩ := t
      rw [hptx] at h
      simp only [Except.ok.injEq, Prod.mk.injEq] at h
      obtain ⟨-, -, h3⟩ := h
      subst h3
      exact alGet_alSetIfPresent_self [] halg1

/-- Claim C2, witness: the concrete round trip for submitter `u` with a
two-number card, picking `1a`, then picking `1a` again. -/
theorem c2_witness :
    processVcard (fun s => some s) 0 ⟨[("u", "Ulysses")], [], 0⟩ [] "u"
        (.ok [⟨"FN", some "Carol", none⟩, ⟨"TEL", some "+15551112222", none⟩,
              ⟨"TEL", some "+15551113333", none⟩])
      = .ok (.Deferred, ⟨[("u", "Ulysses")], [], 0⟩,
          [("u", [⟨"Carol", [("+15551112222", none), ("+15551113333", none)], 0⟩])]) ∧
    handlePick (fun _ _ => none) 100 ⟨[("u", "Ulysses")], [], 0⟩
        [("u", [⟨"Carol", [("+15551112222", none), ("+15551113333", none)], 0⟩])] "u" "1a"
      = .ok ("Successfully added 1 contact:\n• Carol (+15551112222)\n",
          ⟨[("u", "Ulysses"), ("+15551112222", "Carol")],
            [⟨0, "u", "Carol", "+15551112222"⟩], 1⟩,
          [("u", [])]) ∧
    handlePick (fun _ _ => none) 200
        ⟨[("u", "Ulysses"), ("+15551112222", "Carol")],
          [⟨0, "u", "Carol", "+15551112222"⟩], 1⟩
        [("u", [])] "u" "1a"
      = .ok ("No pending contacts to pick from.",
          ⟨[("u", "Ulysses"), ("+15551112222", "Carol")],
            [⟨0, "u", "Carol", "+15551112222"⟩], 1⟩, []) := by
  have h := c2_deferral_round_trip (fun s => some s) 0 100 ⟨[("u", "Ulysses")], [], 0⟩ []
    "u" "Carol" "+15551112222" "+15551113333" none none
    [⟨"FN", some "Carol", none⟩, ⟨"TEL", some "+15551112222", none⟩,
     ⟨"TEL", some "+15551113333", none⟩]
    (by decide) (by decide) (by decide) (by decide) (by decide) (by decide) (by decide)
  refine ⟨h.1.trans (by decide), (h.2.1).trans (by decide), ?_⟩
  exact (h.2.2.2.1 (fun _ _ => none) 200).trans (by decide)

theorem alGet_foldl_alInsert {α β : Type} (key : β → String) (val : β → α)
    (l : List β) (m : List (String × α)) (tok : String)
    (h : ∀ b ∈ l, tok ≠ key b) :
    alGet (l.foldl (fun acc b => alInsert acc (key b) (val b)) m) tok = alGet m tok := by
  induction l generalizing m with
  | nil => rfl
  | cons b bs ih =>
    rw [List.foldl_cons, ih _ (fun x hx => h x (List.mem_cons_of_mem _ hx))]
    exact alGet_alInsert_ne _ (h b (List.mem_cons_self _ _))

/-- Claim C10: a `delete` search returning k matches records or overwrites
only the tokens with ordinals 1 through k: after the TTL sweep every other
token of the pending map is untouched — in particular a not-yet-expired token
with ordinal j > k left by an earlier, larger search keeps its recorded
contact id — and a subsequent `confirm j` within the TTL still deletes the
contact recorded by that earlier search. -/
theorem c10_stale_ordinal_tokens (areaCode : String → Option String) (now now2 : Nat)
    (db : Db) (pd : PendingMap) (from_ name : String) (j : Nat) (d : PendingDeletion)
    (cj : Contact)
    (hj : j > (deleteMatches db from_ name).length)
    (htok : alGet pd (from_ ++ ":" ++ Nat.repr j) = some d)
    (hfresh1 : now - d.timestamp ≤ DELETION_TIMEOUT)
    (hfresh2 : now2 - d.timestamp ≤ DELETION_TIMEOUT)
    (hcj : db.contacts.find? (fun c => c.id = d.contact_id) = some cj) :
    (∀ tok, (∀ i, i < (deleteMatches db from_ name).length →
        tok ≠ from_ ++ ":" ++ Nat.repr (i + 1)) →
      alGet (handleDelete areaCode now db pd from_ name).2 tok
        = alGet (cleanupPendingDeletions pd now) tok) ∧
    alGet (handleDelete areaCode now db pd from_ name).2 (from_ ++ ":" ++ Nat.repr j)
      = some d ∧
    handleConfirm (fun _ => none) areaCode now2 db
        (handleDelete areaCode now db pd from_ name).2 from_ (Nat.repr j)
      = (.ok ("Deleted 1 contact:\n• " ++ cj.contact_name ++ " ("
            ++ (areaCode cj.contact_user_number).getD "???" ++ ")\n"),
         { db with contacts := db.contacts.filter (fun c => c.id ≠ d.contact_id) },
         (cleanupPendingDeletions (handleDelete areaCode now db pd from_ name).2 now2).filter
           (fun p => p.2.contact_id ≠ cj.id)) := by
  have hpd : (handleDelete areaCode now db pd from_ name).2
      = (deleteMatches db from_ name).enum.foldl
          (fun pd p => alInsert pd (from_ ++ ":" ++ Nat.repr (p.1 + 1)) ⟨p.2.id, now⟩)
          (cleanupPendingDeletions pd now) := rfl
  have huntouched : ∀ tok, (∀ i, i < (deleteMatches db from_ name).length →
      tok ≠ from_ ++ ":" ++ Nat.repr (i + 1)) →
      alGet (handleDelete areaCode now db pd from_ name).2 tok
        = alGet (cleanupPendingDeletions pd now) tok := by
    intro tok htokcond
    rw [hpd]
    exact alGet_foldl_alInsert (fun p => from_ ++ ":" ++ Nat.repr (p.1 + 1))
      (fun p => (⟨p.2.id, now⟩ : PendingDeletion)) _ _ tok
      (fun b hb => htokcond b.1 (List.fst_lt_of_mem_enum hb))
  have hkey : ∀ i, i < (deleteMatches db from_ name).length →
      from_ ++ ":" ++ Nat.repr j ≠ from_ ++ ":" ++ Nat.repr (i + 1) := by
    intro i hi heq
    have h1 : Nat.repr j = Nat.repr (i + 1) := strAppend_left_cancel heq
    have h2 := natRepr_injective h1
    omega
  have hstale : alGet (handleDelete areaCode now db pd from_ name).2
      (from_ ++ ":" ++ Nat.repr j) = some d := by
    rw [huntouched _ hkey]
    exact alGet_filter _ htok (by simpa using hfresh1)
  refine ⟨huntouched, hstale, ?_⟩
  have hstale2 : alGet (cleanupPendingDeletions
      (handleDelete areaCode now db pd from_ name).2 now2)
      (from_ ++ ":" ++ Nat.repr j) = some d :=
    alGet_filter _ hstale (by simpa using hfresh2)
  have hjpos : 0 < j := Nat.lt_of_le_of_lt (Nat.zero_le _) hj
  have hparse : confirmParse (cleanupPendingDeletions
      (handleDelete areaCode now db pd from_ name).2 now2) from_ (Nat.repr j)
      = ([d.contact_id], []) := by
    simp only [confirmParse, splitCommaTrim_repr, List.foldl_cons, List.foldl_nil,
      parseUsize_repr, hjpos, if_true, hstale2]
    simp [hjpos]
  have hcontacts : List.filterMap
      (fun id => db.contacts.find? (fun c => c.id = id)) [d.contact_id] = [cj] := by
    simp [List.filterMap_cons, hcj]
  have htx : txDeleteAll (fun _ => none) db [d.contact_id]
      = .ok { db with contacts := db.contacts.filter (fun c => c.id ≠ d.contact_id) } := by
    simp [txDeleteAll]
  have hr : Nat.repr 1 = "1" := by decide
  simp only [handleConfirm, hparse, List.isEmpty_cons, Bool.false_eq_true, if_false,
    hcontacts, htx, List.foldl_cons, List.foldl_nil, List.length_cons, List.length_nil,
    List.map_cons, List.map_nil, List.isEmpty_nil, if_true]
  simp [String.join, List.foldl_cons, List.foldl_nil, ← String.append_assoc, hr]

/-- Claim C10, witness: a stale token `u:2` from an earlier two-match search
survives a later one-match search and `confirm 2` still deletes contact B. -/
theorem c10_witness :
    alGet (handleDelete (fun _ => none) 10
        ⟨[("u", "Ulysses")],
          [⟨1, "u", "Alpha", "+15550000001"⟩, ⟨2, "u", "Beta", "+15550000002"⟩], 3⟩
        [("u:1", ⟨1, 0⟩), ("u:2", ⟨2, 0⟩)] "u" "Alpha").2 ("u" ++ ":" ++ Nat.repr 2)
      = some ⟨2, 0⟩ ∧
    handleConfirm (fun _ => none) (fun _ => none) 20
        ⟨[("u", "Ulysses")],
          [⟨1, "u", "Alpha", "+15550000001"⟩, ⟨2, "u", "Beta", "+15550000002"⟩], 3⟩
        (handleDelete (fun _ => none) 10
          ⟨[("u", "Ulysses")],
            [⟨1, "u", "Alpha", "+15550000001"⟩, ⟨2, "u", "Beta", "+15550000002"⟩], 3⟩
          [("u:1", ⟨1, 0⟩), ("u:2", ⟨2, 0⟩)] "u" "Alpha").2 "u" (Nat.repr 2)
      = (.ok "Deleted 1 contact:\n• Beta (???)\n",
          ⟨[("u", "Ulysses")], [⟨1, "u", "Alpha", "+15550000001"⟩], 3⟩,
          [("u:1", ⟨1, 10⟩)]) := by
  have h := c10_stale_ordinal_tokens (fun _ => none) 10 20
    ⟨[("u", "Ulysses")],
      [⟨1, "u", "Alpha", "+15550000001"⟩, ⟨2, "u", "Beta", "+15550000002"⟩], 3⟩
    [("u:1", ⟨1, 0⟩), ("u:2", ⟨2, 0⟩)] "u" "Alpha" 2 ⟨2, 0⟩
    ⟨2, "u", "Beta", "+15550000002"⟩
    (by decide) (by decide) (by decide) (by decide) (by decide)
  exact ⟨h.2.1, h.2.2.trans (by decide)⟩

/-- Claim C6: the claim says `handle_pick` never fails or panics on any token,
including tokens whose final character is a multi-byte character. The code
slices the token with `split_at(len - 1)` on the UTF-8 byte length, which
panics when the final character is multi-byte: with one pending deferred
contact, the selection `1é` makes `handle_pick` panic instead of recording a
per-token error as the specification requires. -/
theorem c6_pick_panics_on_multibyte_token :
    handlePick (fun _ _ => none) 0 ⟨[("u", "Ulysses")], [], 0⟩
      [("u", [⟨"Bob", [("+15551234567", none)], 0⟩])] "u" "1é" = .error () := by
  decide

/-- Claim C8, counterexample: a syntactically valid `confirm` ordinal whose
pending-deletion token exists (`u:1` mapping to contact id 42) but whose
contact row is absent produces no per-item message at all — the reply is just
`Deleted 0 contacts:` and the stale token is not even purged. -/
theorem c8_counterexample :
    handleConfirm (fun _ => none) (fun _ => none) 0
      ⟨[("u", "Ulysses")], [], 0⟩ [("u:1", ⟨42, 0⟩)] "u" "1"
      = (.ok "Deleted 0 contacts:\n", ⟨[("u", "Ulysses")], [], 0⟩, [("u:1", ⟨42, 0⟩)]) := by
  decide

/-- Claim C5, counterexample: a store failure (error text `boom`) during a
per-token `pick` insert is embedded verbatim in the reply sent to the sender,
not replaced by a generic internal-error message. -/
theorem c5_counterexample :
    handlePick (fun _ _ => some "boom") 0 ⟨[("u", "Ulysses")], [], 0⟩
      [("u", [⟨"Bob", [("+15551234567", none)], 0⟩])] "u" "1a"
      = .ok ("Failed to process:\n• Failed to add Bob (+15551234567): boom\n",
          ⟨[("u", "Ulysses")], [], 0⟩, [("u", [])])
    ∧ strContains "Failed to process:\n• Failed to add Bob (+15551234567): boom\n" "boom"
        = true := by
  decide

/-- Claim C7, counterexample: recording a new deferral accesses the deferred
map without purging it, so a record of age 1000 s (over the 5-minute TTL)
survives that access, contradicting "removed from its map on the next access
to that map". -/
theorem c7_counterexample :
    processVcard (fun s => some s) 1000 ⟨[("bob", "Bob")], [], 0⟩
      [("alice", [⟨"Old", [("+15550000001", none), ("+15550000002", none)], 0⟩])] "bob"
      (.ok [⟨"FN", some "Carol", none⟩, ⟨"TEL", some "+15551112222", none⟩,
            ⟨"TEL", some "+15551113333", none⟩])
      = .ok (.Deferred, ⟨[("bob", "Bob")], [], 0⟩,
          [("alice", [⟨"Old", [("+15550000001", none), ("+15550000002", none)], 0⟩]),
           ("bob", [⟨"Carol", [("+15551112222", none), ("+15551113333", none)], 1000⟩])])
    ∧ 1000 - 0 > DEFERRED_TIMEOUT := by
  decide

/-- Claim C9, counterexample: a name of 11 characters `é` is non-empty and at
most 20 characters long, yet the code rejects it (its UTF-8 byte length is 22)
and the corrective reply states 22, not the character count. -/
theorem c9_counterexample :
    (processText (fun _ => none) (fun _ _ => none) (fun _ => none) 0
        ⟨⟨[("u", "Old")], [], 0⟩, [], []⟩ "u"
        "name ééééééééééé"
      = .ok (.ok "That name is 22 characters long.\nPlease shorten it to 20 characters or less.",
          ⟨⟨[("u", "Old")], [], 0⟩, [], []⟩))
    ∧ ("ééééééééééé" : String).length = 11 := by
  decide

/-- Claim C4, counterexample: from an unknown sender, the input
`name abcdefghijklmnopqrstu` (a `name` command with a 21-byte argument) is not
a valid `name <text>` command, yet the reply is the length-correction message,
not the onboarding prompt. No User row is created. -/
theorem c4_counterexample :
    (processText (fun _ => none) (fun _ _ => none) (fun _ => none) 0
        ⟨⟨[], [], 0⟩, [], []⟩ "+15551230000" "name abcdefghijklmnopqrstu"
      = .ok (.ok "That name is 21 characters long.\nPlease shorten it to 20 characters or less.",
          ⟨⟨[], [], 0⟩, [], []⟩))
    ∧ "That name is 21 characters long.\nPlease shorten it to 20 characters or less."
        ≠ onboardingPrompt := by
  decide

end DecisionBot
